import Mathlib

open Matrix

/-!
Verification development for `mavros/src/lib/ftf_frame_conversions.cpp`.

The C++ core converts orientations (quaternions), 3-vectors and covariance
matrices of sizes 3, 6 and 9 between the NED/ENU and Aircraft/BaseLink frame
pairs, and through arbitrary caller-supplied rotations.  All constants that
occur in the code (the canonical quaternions and their rotation matrices) have
components in the field ℚ(√2), so we embed the code's real arithmetic exactly
over that field.
-/

/-- The field ℚ(√2): a pair `⟨a, b⟩` denotes the real number a + b·√2.
Every canonical-rotation constant of the frame-conversion code lies in this
field, so exact arithmetic over it models the code's real-number semantics. -/
@[ext]
structure Ksq where
  a : ℚ
  b : ℚ
  deriving DecidableEq

namespace Ksq

/-- Addition: componentwise. -/
def add (x y : Ksq) : Ksq := ⟨x.a + y.a, x.b + y.b⟩

/-- Multiplication: (a + b√2)(c + d√2) = (ac + 2bd) + (ad + bc)√2. -/
def mul (x y : Ksq) : Ksq := ⟨x.a * y.a + 2 * x.b * y.b, x.a * y.b + x.b * y.a⟩

/-- Negation: componentwise. -/
def neg (x : Ksq) : Ksq := ⟨-x.a, -x.b⟩

/-- Inverse: 1/(a + b√2) = (a - b√2)/(a² - 2b²). -/
def inv (x : Ksq) : Ksq :=
  ⟨x.a / (x.a ^ 2 - 2 * x.b ^ 2), -x.b / (x.a ^ 2 - 2 * x.b ^ 2)⟩

instance : Zero Ksq := ⟨⟨0, 0⟩⟩

instance : One Ksq := ⟨⟨1, 0⟩⟩

instance : Add Ksq := ⟨add⟩

instance : Mul Ksq := ⟨mul⟩

instance : Neg Ksq := ⟨neg⟩

instance : Inv Ksq := ⟨inv⟩

instance : CommRing Ksq where
  add_assoc := by
    intro x y z
    show add (add x y) z = add x (add y z)
    ext <;> simp [add] <;> ring
  zero_add := by
    intro x
    show add ⟨0, 0⟩ x = x
    ext <;> simp [add]
  add_zero := by
    intro x
    show add x ⟨0, 0⟩ = x
    ext <;> simp [add]
  add_comm := by
    intro x y
    show add x y = add y x
    ext <;> simp [add] <;> ring
  mul_assoc := by
    intro x y z
    show mul (mul x y) z = mul x (mul y z)
    ext <;> simp [mul] <;> ring
  one_mul := by
    intro x
    show mul ⟨1, 0⟩ x = x
    ext <;> simp [mul]
  mul_one := by
    intro x
    show mul x ⟨1, 0⟩ = x
    ext <;> simp [mul]
  left_distrib := by
    intro x y z
    show mul x (add y z) = add (mul x y) (mul x z)
    ext <;> simp [mul, add] <;> ring
  right_distrib := by
    intro x y z
    show mul (add x y) z = add (mul x z) (mul y z)
    ext <;> simp [mul, add] <;> ring
  zero_mul := by
    intro x
    show mul ⟨0, 0⟩ x = ⟨0, 0⟩
    ext <;> simp [mul]
  mul_zero := by
    intro x
    show mul x ⟨0, 0⟩ = ⟨0, 0⟩
    ext <;> simp [mul]
  neg_add_cancel := by
    intro x
    show add (neg x) x = ⟨0, 0⟩
    ext <;> simp [add, neg]
  mul_comm := by
    intro x y
    show mul x y = mul y x
    ext <;> simp [mul] <;> ring
  nsmul := nsmulRec
  zsmul := zsmulRec
  natCast := fun n => ⟨n, 0⟩
  natCast_zero := by
    show (⟨((0 : ℕ) : ℚ), 0⟩ : Ksq) = ⟨0, 0⟩
    ext <;> simp
  natCast_succ := by
    intro n
    show (⟨((n + 1 : ℕ) : ℚ), 0⟩ : Ksq) = add ⟨n, 0⟩ ⟨1, 0⟩
    ext <;> simp [add]
  intCast := fun z => ⟨z, 0⟩
  intCast_ofNat := by
    intro n
    show (⟨((n : ℤ) : ℚ), 0⟩ : Ksq) = ⟨n, 0⟩
    ext <;> simp
  intCast_negSucc := by
    intro n
    show (⟨((Int.negSucc n : ℤ) : ℚ), 0⟩ : Ksq) = neg ⟨((n + 1 : ℕ) : ℚ), 0⟩
    ext <;> simp [neg, Int.cast_negSucc]

instance : Field Ksq where
  exists_pair_ne := by
    refine ⟨⟨0, 0⟩, ⟨1, 0⟩, ?_⟩
    intro h
    exact one_ne_zero (congrArg Ksq.a h).symm
  mul_inv_cancel := by
    intro x hx
    have hd : x.a ^ 2 - 2 * x.b ^ 2 ≠ 0 := by
      intro hd0
      rcases eq_or_ne x.b 0 with hb | hb
      · have ha : x.a = 0 := by
          have h2 : x.a ^ 2 = 0 := by rw [hb] at hd0; linarith
          exact pow_eq_zero_iff two_ne_zero |>.mp h2
        refine hx ?_
        have h0 : (0 : Ksq) = ⟨0, 0⟩ := rfl
        rw [h0]
        ext <;> simp [ha, hb]
      · have h2 : (x.a / x.b) ^ 2 = 2 := by
          field_simp
          linarith
        have h3 : ((x.a / x.b : ℚ) : ℝ) ^ 2 = 2 := by exact_mod_cast h2
        have h4 : Real.sqrt 2 = |((x.a / x.b : ℚ) : ℝ)| := by
          rw [← h3, Real.sqrt_sq_eq_abs]
        have h5 : Irrational (Real.sqrt 2) := irrational_sqrt_two
        rw [h4, ← Rat.cast_abs] at h5
        exact (Rat.not_irrational _) h5
    show mul x (inv x) = ⟨1, 0⟩
    ext
    · show x.a * (x.a / (x.a ^ 2 - 2 * x.b ^ 2)) +
        2 * x.b * (-x.b / (x.a ^ 2 - 2 * x.b ^ 2)) = 1
      field_simp
      ring
    · show x.a * (-x.b / (x.a ^ 2 - 2 * x.b ^ 2)) +
        x.b * (x.a / (x.a ^ 2 - 2 * x.b ^ 2)) = 0
      field_simp
      ring
  inv_zero := by
    show inv ⟨0, 0⟩ = ⟨0, 0⟩
    ext <;> simp [inv]
  nnqsmul := _
  nnqsmul_def := fun _ _ => rfl
  qsmul := _
  qsmul_def := fun _ _ => rfl

/-- √2 as an element of ℚ(√2). -/
def sqrt2 : Ksq := ⟨0, 1⟩

end Ksq

/-- √2/2 = sin(π/4) = cos(π/4), the only irrational constant in the code. -/
def halfSqrt2 : Ksq := ⟨0, 1/2⟩

/-- 3-vectors (`Eigen::Vector3d`). -/
abbrev Vec3 := Fin 3 → Ksq

/-- `Covariance3d` viewed through its Eigen map: a 3×3 matrix. -/
abbrev Mat3 := Matrix (Fin 3) (Fin 3) Ksq

/-- `Covariance6d` viewed through its Eigen map: a 6×6 matrix. -/
abbrev Mat6 := Matrix (Fin 6) (Fin 6) Ksq

/-- `Covariance9d` viewed through its Eigen map: a 9×9 matrix. -/
abbrev Mat9 := Matrix (Fin 9) (Fin 9) Ksq

/-- `Eigen::Quaterniond(w, x, y, z)` as a Mathlib quaternion over ℚ(√2). -/
def quatMk (w x y z : Ksq) : Quaternion Ksq := ⟨w, x, y, z⟩

/-- The unit quaternion of a rotation by π about the X axis:
(cos(π/2), sin(π/2)·x̂) = (0, 1, 0, 0). -/
def qRotX_pi : Quaternion Ksq := quatMk 0 1 0 0

/-- The unit quaternion of a rotation by π/2 about the Z axis:
(cos(π/4), 0, 0, sin(π/4)) = (√2/2, 0, 0, √2/2). -/
def qRotZ_halfpi : Quaternion Ksq := quatMk halfSqrt2 0 0 halfSqrt2

/-- Modelled from the spec: `quaternion_from_rpy` is declared in
`mavros/frame_tf.h`, which is not among the given sources.  Per the spec (§3),
the canonical NED↔ENU rotation is "a 180° rotation about the North/East axis
followed by a 90° rotation about the Down/Up axis": world-frame (extrinsic)
composition, so the Z rotation is left-multiplied onto the X rotation.
This is `NED_ENU_Q = quaternion_from_rpy(M_PI, 0.0, M_PI_2)` (source line 30);
its value is (w, x, y, z) = (0, √2/2, √2/2, 0). -/
def NED_ENU_Q : Quaternion Ksq := qRotZ_halfpi * qRotX_pi

/-- Modelled from the spec: the canonical Aircraft↔BaseLink rotation is "a 180°
rotation about the Forward axis", i.e.
`AIRCRAFT_BASELINK_Q = quaternion_from_rpy(M_PI, 0.0, 0.0)` (source line 37);
its value is (w, x, y, z) = (0, 1, 0, 0). -/
def AIRCRAFT_BASELINK_Q : Quaternion Ksq := qRotX_pi

/-- Eigen's `Quaternion::toRotationMatrix`, which reads the components directly
(it assumes a unit quaternion and performs no normalisation).  Eigen applies
this conversion whenever a quaternion meets a matrix or a vector:
`Eigen::Affine3d(q)`, `mat * q`. -/
def toRotMatRaw (q : Quaternion Ksq) : Mat3 :=
  !![1 - 2 * (q.imJ ^ 2 + q.imK ^ 2), 2 * (q.imI * q.imJ - q.re * q.imK),
       2 * (q.imI * q.imK + q.re * q.imJ);
     2 * (q.imI * q.imJ + q.re * q.imK), 1 - 2 * (q.imI ^ 2 + q.imK ^ 2),
       2 * (q.imJ * q.imK - q.re * q.imI);
     2 * (q.imI * q.imK - q.re * q.imJ), 2 * (q.imJ * q.imK + q.re * q.imI),
       1 - 2 * (q.imI ^ 2 + q.imJ ^ 2)]

/-- Numerator matrix of the rotation matrix of q/‖q‖: every entry of
`toRotMatRaw (q/‖q‖)` equals the corresponding entry here divided by
normSq q = ‖q‖², because the entries are quadratic (using
1 − 2(y²+z²)/n = (w²+x²−y²−z²)/n for n = w²+x²+y²+z²). -/
def rotNum (q : Quaternion Ksq) : Mat3 :=
  !![q.re ^ 2 + q.imI ^ 2 - q.imJ ^ 2 - q.imK ^ 2, 2 * (q.imI * q.imJ - q.re * q.imK),
       2 * (q.imI * q.imK + q.re * q.imJ);
     2 * (q.imI * q.imJ + q.re * q.imK), q.re ^ 2 - q.imI ^ 2 + q.imJ ^ 2 - q.imK ^ 2,
       2 * (q.imJ * q.imK - q.re * q.imI);
     2 * (q.imI * q.imK - q.re * q.imJ), 2 * (q.imJ * q.imK + q.re * q.imI),
       q.re ^ 2 - q.imI ^ 2 - q.imJ ^ 2 + q.imK ^ 2]

/-- `q.normalized().toRotationMatrix()` evaluated exactly over ℚ(√2): for
q ≠ 0 this equals the rotation matrix of the unit quaternion q/‖q‖, with no
square root needed since the entries are homogeneous of degree 2 over ‖q‖². -/
def toRotMatNormalized (q : Quaternion Ksq) : Mat3 :=
  (Quaternion.normSq q)⁻¹ • rotNum q

/-- Source line 57: `NED_ENU_R = NED_ENU_Q.normalized().toRotationMatrix()`. -/
def NED_ENU_R : Mat3 := toRotMatNormalized NED_ENU_Q

/-- Source line 58: `AIRCRAFT_BASELINK_R =
AIRCRAFT_BASELINK_Q.normalized().toRotationMatrix()`. -/
def AIRCRAFT_BASELINK_R : Mat3 := toRotMatNormalized AIRCRAFT_BASELINK_Q

/-- Source line 45: `Eigen::Affine3d NED_ENU_AFFINE(NED_ENU_Q)` — a pure
rotation built from the quaternion by `toRotationMatrix` (no normalisation). -/
def NED_ENU_AFFINE : Mat3 := toRotMatRaw NED_ENU_Q

/-- Source line 52: `Eigen::Affine3d AIRCRAFT_BASELINK_AFFINE(AIRCRAFT_BASELINK_Q)`. -/
def AIRCRAFT_BASELINK_AFFINE : Mat3 := toRotMatRaw AIRCRAFT_BASELINK_Q

/-- The `StaticTF` selector enum (declared in `frame_tf.h`, used by the
source's switches): exactly four values, two frame-pair families. -/
inductive StaticTF where
  | NED_TO_ENU
  | ENU_TO_NED
  | AIRCRAFT_TO_BASELINK
  | BASELINK_TO_AIRCRAFT
  deriving DecidableEq

/-- Source lines 68–82: `transform_orientation`.  NED/ENU: left-multiply by
the canonical quaternion; Aircraft/BaseLink: right-multiply. -/
def transform_orientation (q : Quaternion Ksq) (t : StaticTF) : Quaternion Ksq :=
  match t with
  | .NED_TO_ENU | .ENU_TO_NED => NED_ENU_Q * q
  | .AIRCRAFT_TO_BASELINK | .BASELINK_TO_AIRCRAFT => q * AIRCRAFT_BASELINK_Q

/-- Source lines 84–95: `transform_static_frame` on `Vector3d`: apply the
canonical affine (pure rotation) to the vector. -/
def transform_static_frame_vec (v : Vec3) (t : StaticTF) : Vec3 :=
  match t with
  | .NED_TO_ENU | .ENU_TO_NED => Matrix.mulVec NED_ENU_AFFINE v
  | .AIRCRAFT_TO_BASELINK | .BASELINK_TO_AIRCRAFT =>
      Matrix.mulVec AIRCRAFT_BASELINK_AFFINE v

/-- Source lines 97–114: `transform_static_frame` on `Covariance3d`:
`cov_out = cov_in * Q`.  Eigen resolves `matrix * quaternion` as
`matrix * q.toRotationMatrix()` — the quaternion is converted raw (no
normalisation) and multiplies the covariance on the right; there is no
sandwich product in this overload. -/
def transform_static_frame3 (cov : Mat3) (t : StaticTF) : Mat3 :=
  match t with
  | .NED_TO_ENU | .ENU_TO_NED => cov * toRotMatRaw NED_ENU_Q
  | .AIRCRAFT_TO_BASELINK | .BASELINK_TO_AIRCRAFT =>
      cov * toRotMatRaw AIRCRAFT_BASELINK_Q

/-- Block-diagonal tiling of a 3×3 matrix into a 6×6 matrix (the `R <<
R3, 0, 0, R3` comma-initialisation of the source, lines 127/135/198). -/
def tile2 (A : Mat3) : Mat6 :=
  Matrix.of fun i j =>
    if hi : (i : ℕ) < 3 then
      if hj : (j : ℕ) < 3 then A ⟨i, hi⟩ ⟨j, hj⟩ else 0
    else
      if hj : (j : ℕ) < 3 then 0
      else A ⟨(i : ℕ) - 3, by omega⟩ ⟨(j : ℕ) - 3, by omega⟩

/-- Block-diagonal tiling of a 3×3 matrix into a 9×9 matrix (lines
154/163/216). -/
def tile3 (A : Mat3) : Mat9 :=
  Matrix.of fun i j =>
    if hi : (i : ℕ) < 3 then
      if hj : (j : ℕ) < 3 then A ⟨i, hi⟩ ⟨j, hj⟩ else 0
    else if hi2 : (i : ℕ) < 6 then
      if hj : (j : ℕ) < 3 then 0
      else if hj2 : (j : ℕ) < 6 then A ⟨(i : ℕ) - 3, by omega⟩ ⟨(j : ℕ) - 3, by omega⟩
      else 0
    else
      if hj : (j : ℕ) < 6 then 0
      else A ⟨(i : ℕ) - 6, by omega⟩ ⟨(j : ℕ) - 6, by omega⟩

/-- Source lines 116–141: `transform_static_frame` on `Covariance6d`:
tile the canonical 3×3 rotation matrix and apply the sandwich product
`R * cov * Rᵀ`. -/
def transform_static_frame6 (cov : Mat6) (t : StaticTF) : Mat6 :=
  match t with
  | .NED_TO_ENU | .ENU_TO_NED =>
      tile2 NED_ENU_R * cov * (tile2 NED_ENU_R)ᵀ
  | .AIRCRAFT_TO_BASELINK | .BASELINK_TO_AIRCRAFT =>
      tile2 AIRCRAFT_BASELINK_R * cov * (tile2 AIRCRAFT_BASELINK_R)ᵀ

/-- Source lines 143–170: `transform_static_frame` on `Covariance9d`. -/
def transform_static_frame9 (cov : Mat9) (t : StaticTF) : Mat9 :=
  match t with
  | .NED_TO_ENU | .ENU_TO_NED =>
      tile3 NED_ENU_R * cov * (tile3 NED_ENU_R)ᵀ
  | .AIRCRAFT_TO_BASELINK | .BASELINK_TO_AIRCRAFT =>
      tile3 AIRCRAFT_BASELINK_R * cov * (tile3 AIRCRAFT_BASELINK_R)ᵀ

/-- Source lines 172–176: `transform_frame` on `Vector3d`: rotate by
`Affine3d(q)`, i.e. by the raw (unnormalised) rotation matrix of `q`. -/
def transform_frame_vec (v : Vec3) (q : Quaternion Ksq) : Vec3 :=
  Matrix.mulVec (toRotMatRaw q) v

/-- Source lines 178–186: `transform_frame` on `Covariance3d`:
`cov_out = cov_in * q`, i.e. right-multiplication by the raw (unnormalised)
rotation matrix of `q`; no normalisation, no sandwich product. -/
def transform_frame3 (cov : Mat3) (q : Quaternion Ksq) : Mat3 :=
  cov * toRotMatRaw q

/-- Source lines 188–204: `transform_frame` on `Covariance6d`:
`R_q = q.normalized().toRotationMatrix()`, tiled, then `R * cov * Rᵀ`. -/
def transform_frame6 (cov : Mat6) (q : Quaternion Ksq) : Mat6 :=
  tile2 (toRotMatNormalized q) * cov * (tile2 (toRotMatNormalized q))ᵀ

/-- Source lines 206–223: `transform_frame` on `Covariance9d`. -/
def transform_frame9 (cov : Mat9) (q : Quaternion Ksq) : Mat9 :=
  tile3 (toRotMatNormalized q) * cov * (tile3 (toRotMatNormalized q))ᵀ

/-- The diagonal covariance-3 with diagonal (1, 2, 3) from the spec's
round-trip scenario. -/
def covDiag123 : Mat3 := !![1, 0, 0; 0, 2, 0; 0, 0, 3]

/-! ### Component lemmas for ℚ(√2) arithmetic -/

namespace Ksq

@[simp]
theorem zero_a : (0 : Ksq).a = 0 := rfl

@[simp]
theorem zero_b : (0 : Ksq).b = 0 := rfl

@[simp]
theorem one_a : (1 : Ksq).a = 1 := rfl

@[simp]
theorem one_b : (1 : Ksq).b = 0 := rfl

@[simp]
theorem add_a (x y : Ksq) : (x + y).a = x.a + y.a := rfl

@[simp]
theorem add_b (x y : Ksq) : (x + y).b = x.b + y.b := rfl

@[simp]
theorem mul_a (x y : Ksq) : (x * y).a = x.a * y.a + 2 * x.b * y.b := rfl

@[simp]
theorem mul_b (x y : Ksq) : (x * y).b = x.a * y.b + x.b * y.a := rfl

@[simp]
theorem neg_a (x : Ksq) : (-x).a = -x.a := rfl

@[simp]
theorem neg_b (x : Ksq) : (-x).b = -x.b := rfl

@[simp]
theorem sub_a (x y : Ksq) : (x - y).a = x.a - y.a := by
  rw [sub_eq_add_neg, sub_eq_add_neg]
  rfl

@[simp]
theorem sub_b (x y : Ksq) : (x - y).b = x.b - y.b := by
  rw [sub_eq_add_neg, sub_eq_add_neg]
  rfl

@[simp]
theorem inv_a (x : Ksq) : (x⁻¹).a = x.a / (x.a ^ 2 - 2 * x.b ^ 2) := rfl

@[simp]
theorem inv_b (x : Ksq) : (x⁻¹).b = -x.b / (x.a ^ 2 - 2 * x.b ^ 2) := rfl

@[simp]
theorem natCast_a (n : ℕ) : (n : Ksq).a = n := rfl

@[simp]
theorem natCast_b (n : ℕ) : (n : Ksq).b = 0 := rfl

@[simp]
theorem intCast_a (z : ℤ) : (z : Ksq).a = z := rfl

@[simp]
theorem intCast_b (z : ℤ) : (z : Ksq).b = 0 := rfl

@[simp]
theorem ofNat_a (n : ℕ) [n.AtLeastTwo] :
    (no_index (OfNat.ofNat n) : Ksq).a = OfNat.ofNat n := by
  show ((n : ℕ) : ℚ) = OfNat.ofNat n
  exact Nat.cast_ofNat

@[simp]
theorem ofNat_b (n : ℕ) [n.AtLeastTwo] :
    (no_index (OfNat.ofNat n) : Ksq).b = 0 := rfl

@[simp]
theorem sq_a (x : Ksq) : (x ^ 2).a = x.a ^ 2 + 2 * x.b ^ 2 := by
  rw [pow_two]
  show x.a * x.a + 2 * x.b * x.b = _
  ring

@[simp]
theorem sq_b (x : Ksq) : (x ^ 2).b = 2 * (x.a * x.b) := by
  rw [pow_two]
  show x.a * x.b + x.b * x.a = _
  ring

@[simp]
theorem halfSqrt2_a : halfSqrt2.a = 0 := rfl

@[simp]
theorem halfSqrt2_b : halfSqrt2.b = 1 / 2 := rfl

end Ksq

/-! ### Values of the canonical constants -/

theorem NED_ENU_Q_eval : NED_ENU_Q = quatMk 0 halfSqrt2 halfSqrt2 0 := by
  ext <;>
    simp [NED_ENU_Q, qRotZ_halfpi, qRotX_pi, quatMk, Quaternion.mul_re,
      Quaternion.mul_imI, Quaternion.mul_imJ, Quaternion.mul_imK]

theorem toRotMatRaw_NED :
    toRotMatRaw NED_ENU_Q = !![0, 1, 0; 1, 0, 0; 0, 0, -1] := by
  rw [NED_ENU_Q_eval]
  ext i j <;> fin_cases i <;> fin_cases j <;> norm_num [toRotMatRaw, quatMk]

theorem toRotMatRaw_AB :
    toRotMatRaw AIRCRAFT_BASELINK_Q = !![1, 0, 0; 0, -1, 0; 0, 0, -1] := by
  ext i j <;> fin_cases i <;> fin_cases j <;>
    norm_num [toRotMatRaw, AIRCRAFT_BASELINK_Q, qRotX_pi, quatMk]

theorem normSq_NED_ENU_Q : Quaternion.normSq NED_ENU_Q = 1 := by
  rw [NED_ENU_Q_eval, Quaternion.normSq_def']
  ext <;> norm_num [quatMk]

theorem normSq_AB_Q : Quaternion.normSq AIRCRAFT_BASELINK_Q = 1 := by
  rw [Quaternion.normSq_def']
  ext <;> norm_num [AIRCRAFT_BASELINK_Q, qRotX_pi, quatMk]

theorem rotNum_NED : rotNum NED_ENU_Q = !![0, 1, 0; 1, 0, 0; 0, 0, -1] := by
  rw [NED_ENU_Q_eval]
  ext i j <;> fin_cases i <;> fin_cases j <;> norm_num [rotNum, quatMk]

theorem rotNum_AB : rotNum AIRCRAFT_BASELINK_Q = !![1, 0, 0; 0, -1, 0; 0, 0, -1] := by
  ext i j <;> fin_cases i <;> fin_cases j <;>
    norm_num [rotNum, AIRCRAFT_BASELINK_Q, qRotX_pi, quatMk]

theorem NED_ENU_R_eval : NED_ENU_R = !![0, 1, 0; 1, 0, 0; 0, 0, -1] := by
  rw [NED_ENU_R, toRotMatNormalized, normSq_NED_ENU_Q, inv_one, one_smul, rotNum_NED]

theorem AB_R_eval : AIRCRAFT_BASELINK_R = !![1, 0, 0; 0, -1, 0; 0, 0, -1] := by
  rw [AIRCRAFT_BASELINK_R, toRotMatNormalized, normSq_AB_Q, inv_one, one_smul, rotNum_AB]

theorem NED_ENU_R_mul_self : NED_ENU_R * NED_ENU_R = 1 := by
  rw [NED_ENU_R_eval]
  ext i j <;> fin_cases i <;> fin_cases j <;>
    norm_num [Matrix.mul_apply, Fin.sum_univ_three, Matrix.one_apply,
      Matrix.vecHead, Matrix.vecTail, Fin.ext_iff]

theorem AB_R_mul_self : AIRCRAFT_BASELINK_R * AIRCRAFT_BASELINK_R = 1 := by
  rw [AB_R_eval]
  ext i j <;> fin_cases i <;> fin_cases j <;>
    norm_num [Matrix.mul_apply, Fin.sum_univ_three, Matrix.one_apply,
      Matrix.vecHead, Matrix.vecTail, Fin.ext_iff]

/-! ### Block-tiling algebra -/

theorem tile2_eq (A : Mat3) :
    tile2 A = (Matrix.fromBlocks A 0 0 A).submatrix
      (@finSumFinEquiv 3 3).symm (@finSumFinEquiv 3 3).symm := by
  refine Matrix.ext fun i j => ?_
  fin_cases i <;> fin_cases j <;>
    norm_num [tile2, Matrix.submatrix, finSumFinEquiv, Matrix.fromBlocks,
      Fin.addCases, Fin.castLT, Fin.subNat, Sum.elim]

set_option maxHeartbeats 1600000 in
theorem tile3_eq (A : Mat3) :
    tile3 A = (Matrix.fromBlocks A 0 0 (tile2 A)).submatrix
      (@finSumFinEquiv 3 6).symm (@finSumFinEquiv 3 6).symm := by
  refine Matrix.ext fun i j => ?_
  fin_cases i <;> fin_cases j <;>
    norm_num [tile3, tile2, Matrix.submatrix, finSumFinEquiv, Matrix.fromBlocks,
      Fin.addCases, Fin.castLT, Fin.subNat, Sum.elim]

theorem tile2_mul (A B : Mat3) : tile2 A * tile2 B = tile2 (A * B) := by
  rw [tile2_eq, tile2_eq, tile2_eq, Matrix.submatrix_mul_equiv,
    Matrix.fromBlocks_multiply]
  simp

theorem tile3_mul (A B : Mat3) : tile3 A * tile3 B = tile3 (A * B) := by
  rw [tile3_eq, tile3_eq, tile3_eq, Matrix.submatrix_mul_equiv,
    Matrix.fromBlocks_multiply, tile2_mul]
  simp

theorem tile2_one : tile2 (1 : Mat3) = 1 := by
  rw [tile2_eq, Matrix.fromBlocks_one, Matrix.submatrix_one_equiv]

theorem tile3_one : tile3 (1 : Mat3) = 1 := by
  rw [tile3_eq, tile2_one, Matrix.fromBlocks_one, Matrix.submatrix_one_equiv]

theorem tile2_transpose (A : Mat3) : (tile2 A)ᵀ = tile2 Aᵀ := by
  rw [tile2_eq, tile2_eq, Matrix.transpose_submatrix, Matrix.fromBlocks_transpose]
  simp

theorem tile3_transpose (A : Mat3) : (tile3 A)ᵀ = tile3 Aᵀ := by
  rw [tile3_eq, tile3_eq, Matrix.transpose_submatrix, Matrix.fromBlocks_transpose,
    tile2_transpose]
  simp

/-! ### Quaternion and sandwich helper lemmas -/

theorem Qned_sq : NED_ENU_Q * NED_ENU_Q = -1 := by
  rw [NED_ENU_Q_eval]
  ext <;>
    simp [quatMk, Quaternion.mul_re, Quaternion.mul_imI, Quaternion.mul_imJ,
      Quaternion.mul_imK] <;>
    norm_num

theorem Qab_sq : AIRCRAFT_BASELINK_Q * AIRCRAFT_BASELINK_Q = -1 := by
  ext <;>
    simp [AIRCRAFT_BASELINK_Q, qRotX_pi, quatMk, Quaternion.mul_re,
      Quaternion.mul_imI, Quaternion.mul_imJ, Quaternion.mul_imK]

theorem raw_NED_eq_R : toRotMatRaw NED_ENU_Q = NED_ENU_R := by
  rw [toRotMatRaw_NED, NED_ENU_R_eval]

theorem raw_AB_eq_R : toRotMatRaw AIRCRAFT_BASELINK_Q = AIRCRAFT_BASELINK_R := by
  rw [toRotMatRaw_AB, AB_R_eval]

theorem sandwich_transpose {n : ℕ} (R C : Matrix (Fin n) (Fin n) Ksq)
    (hC : Cᵀ = C) : (R * C * Rᵀ)ᵀ = R * C * Rᵀ := by
  rw [Matrix.transpose_mul, Matrix.transpose_mul, Matrix.transpose_transpose,
    hC, Matrix.mul_assoc]

theorem sandwich_sandwich {n : ℕ} (R C : Matrix (Fin n) (Fin n) Ksq)
    (h : R * R = 1) : R * (R * C * Rᵀ) * Rᵀ = C := by
  have ht : Rᵀ * Rᵀ = 1 := by
    rw [← Matrix.transpose_mul, h, Matrix.transpose_one]
  calc R * (R * C * Rᵀ) * Rᵀ = R * R * C * (Rᵀ * Rᵀ) := by
        simp [Matrix.mul_assoc]
    _ = C := by rw [h, ht, Matrix.one_mul, Matrix.mul_one]

theorem tile2_NED_mul_self : tile2 NED_ENU_R * tile2 NED_ENU_R = 1 := by
  rw [tile2_mul, NED_ENU_R_mul_self, tile2_one]

theorem tile2_AB_mul_self :
    tile2 AIRCRAFT_BASELINK_R * tile2 AIRCRAFT_BASELINK_R = 1 := by
  rw [tile2_mul, AB_R_mul_self, tile2_one]

theorem tile3_NED_mul_self : tile3 NED_ENU_R * tile3 NED_ENU_R = 1 := by
  rw [tile3_mul, NED_ENU_R_mul_self, tile3_one]

theorem tile3_AB_mul_self :
    tile3 AIRCRAFT_BASELINK_R * tile3 AIRCRAFT_BASELINK_R = 1 := by
  rw [tile3_mul, AB_R_mul_self, tile3_one]

theorem rotNum_smul (c : Ksq) (q : Quaternion Ksq) :
    rotNum (c • q) = (c ^ 2) • rotNum q := by
  refine Matrix.ext fun i j => ?_
  fin_cases i <;> fin_cases j <;>
    simp [rotNum, Quaternion.smul_re, Quaternion.smul_imI, Quaternion.smul_imJ,
      Quaternion.smul_imK, smul_eq_mul, Matrix.smul_apply] <;>
    ring

theorem normSq_mul_hom (p q : Quaternion Ksq) :
    Quaternion.normSq (p * q) = Quaternion.normSq p * Quaternion.normSq q :=
  map_mul Quaternion.normSq p q

theorem normSq_one_hom : Quaternion.normSq (1 : Quaternion Ksq) = 1 :=
  map_one Quaternion.normSq

/-! ### Claim theorems -/

/-- C1 (counterexample): the static size-3 covariance transform does NOT equal
the sandwich product R·cov·Rᵀ for all inputs: at the identity covariance and
the NED/ENU canonical rotation, the code returns cov·R = R while the sandwich
form returns R·Rᵀ = 1, and R ≠ 1. -/
theorem C1_cov3_sandwich_cex :
    transform_static_frame3 (1 : Mat3) StaticTF.NED_TO_ENU ≠
      NED_ENU_R * (1 : Mat3) * NED_ENU_Rᵀ := by
  intro h
  have h00 := congrFun (congrFun h 0) 0
  have ha := congrArg Ksq.a h00
  simp [transform_static_frame3, toRotMatRaw_NED, NED_ENU_R_eval,
    Matrix.mul_apply, Fin.sum_univ_three, Matrix.transpose_apply,
    Matrix.one_apply] at ha

/-- C1 (amended): for every 3×3 covariance and both canonical rotations, the
static size-3 transform returns cov·R — the covariance multiplied on the right
by the canonical rotation matrix (Eigen resolves `cov * Q` as
`cov * Q.toRotationMatrix()`).  This is not equal to the sandwich form
R·cov·Rᵀ in general (see the counterexample). -/
theorem C1_cov3_right_multiply (cov : Mat3) :
    transform_static_frame3 cov StaticTF.NED_TO_ENU = cov * NED_ENU_R ∧
    transform_static_frame3 cov StaticTF.ENU_TO_NED = cov * NED_ENU_R ∧
    transform_static_frame3 cov StaticTF.AIRCRAFT_TO_BASELINK =
      cov * AIRCRAFT_BASELINK_R ∧
    transform_static_frame3 cov StaticTF.BASELINK_TO_AIRCRAFT =
      cov * AIRCRAFT_BASELINK_R := by
  refine ⟨?_, ?_, ?_, ?_⟩
  · show cov * toRotMatRaw NED_ENU_Q = cov * NED_ENU_R
    rw [raw_NED_eq_R]
  · show cov * toRotMatRaw NED_ENU_Q = cov * NED_ENU_R
    rw [raw_NED_eq_R]
  · show cov * toRotMatRaw AIRCRAFT_BASELINK_Q = cov * AIRCRAFT_BASELINK_R
    rw [raw_AB_eq_R]
  · show cov * toRotMatRaw AIRCRAFT_BASELINK_Q = cov * AIRCRAFT_BASELINK_R
    rw [raw_AB_eq_R]

/-- C2 (counterexample): the size-3 static covariance transform does not
preserve symmetry: the symmetric diagonal covariance diag(1,2,3) maps under
NED_TO_ENU to a non-symmetric matrix. -/
theorem C2_cov3_symmetry_cex :
    covDiag123ᵀ = covDiag123 ∧
    (transform_static_frame3 covDiag123 StaticTF.NED_TO_ENU)ᵀ ≠
      transform_static_frame3 covDiag123 StaticTF.NED_TO_ENU := by
  constructor
  · ext i j <;> fin_cases i <;> fin_cases j <;>
      norm_num [covDiag123, Matrix.transpose_apply]
  · intro h
    have h01 := congrFun (congrFun h 0) 1
    have ha := congrArg Ksq.a h01
    simp [transform_static_frame3, toRotMatRaw_NED, covDiag123,
      Matrix.mul_apply, Fin.sum_univ_three, Matrix.transpose_apply] at ha

/-- C2 (amended): for sizes 6 and 9 and every selector, a symmetric input
covariance is mapped by the static covariance transform to a symmetric
output (the size-3 path does not have this property; see the
counterexample). -/
theorem C2_symmetry_6_9 (c6 : Mat6) (c9 : Mat9) (t : StaticTF)
    (h6 : c6ᵀ = c6) (h9 : c9ᵀ = c9) :
    (transform_static_frame6 c6 t)ᵀ = transform_static_frame6 c6 t ∧
    (transform_static_frame9 c9 t)ᵀ = transform_static_frame9 c9 t := by
  cases t <;>
    exact ⟨sandwich_transpose _ _ h6, sandwich_transpose _ _ h9⟩

theorem C2_symmetry_6_9_witness :
    ((1 : Mat6)ᵀ = 1) ∧ ((1 : Mat9)ᵀ = 1) ∧
    ((transform_static_frame6 1 StaticTF.NED_TO_ENU)ᵀ =
        transform_static_frame6 1 StaticTF.NED_TO_ENU ∧
      (transform_static_frame9 1 StaticTF.NED_TO_ENU)ᵀ =
        transform_static_frame9 1 StaticTF.NED_TO_ENU) :=
  ⟨Matrix.transpose_one, Matrix.transpose_one,
    C2_symmetry_6_9 1 1 StaticTF.NED_TO_ENU Matrix.transpose_one
      Matrix.transpose_one⟩

/-- C3 (counterexample): the orientation transform does not round-trip to the
original quaternion: starting from the identity quaternion, NED_TO_ENU
followed by ENU_TO_NED yields Q·Q·1 = −1 ≠ 1 (the canonical quaternion is a
180° rotation, so its square is −1, not +1). -/
theorem C3_orientation_roundtrip_cex :
    transform_orientation (transform_orientation 1 StaticTF.NED_TO_ENU)
      StaticTF.ENU_TO_NED ≠ (1 : Quaternion Ksq) := by
  show NED_ENU_Q * (NED_ENU_Q * 1) ≠ 1
  rw [mul_one, Qned_sq]
  intro h
  have hre := congrArg Quaternion.re h
  simp at hre
  have ha := congrArg Ksq.a hre
  norm_num at ha

/-- C3 (amended): applying a static transform and then its paired reverse
selector returns the original quantity for vectors and for covariances of
sizes 3, 6 and 9 (in particular diag(1,2,3) round-trips under
NED_TO_ENU/ENU_TO_NED); for orientations, however, the round trip returns the
negated quaternion −q (the same rotation, but not the same quaternion
value). -/
theorem C3_roundtrip (q : Quaternion Ksq) (v : Vec3) (c3 : Mat3) (c6 : Mat6)
    (c9 : Mat9) :
    (transform_orientation (transform_orientation q StaticTF.NED_TO_ENU)
        StaticTF.ENU_TO_NED = -q) ∧
    (transform_orientation
        (transform_orientation q StaticTF.AIRCRAFT_TO_BASELINK)
        StaticTF.BASELINK_TO_AIRCRAFT = -q) ∧
    (transform_static_frame_vec (transform_static_frame_vec v
        StaticTF.NED_TO_ENU) StaticTF.ENU_TO_NED = v) ∧
    (transform_static_frame_vec (transform_static_frame_vec v
        StaticTF.AIRCRAFT_TO_BASELINK) StaticTF.BASELINK_TO_AIRCRAFT = v) ∧
    (transform_static_frame3 (transform_static_frame3 c3
        StaticTF.NED_TO_ENU) StaticTF.ENU_TO_NED = c3) ∧
    (transform_static_frame3 (transform_static_frame3 c3
        StaticTF.AIRCRAFT_TO_BASELINK) StaticTF.BASELINK_TO_AIRCRAFT = c3) ∧
    (transform_static_frame6 (transform_static_frame6 c6
        StaticTF.NED_TO_ENU) StaticTF.ENU_TO_NED = c6) ∧
    (transform_static_frame6 (transform_static_frame6 c6
        StaticTF.AIRCRAFT_TO_BASELINK) StaticTF.BASELINK_TO_AIRCRAFT = c6) ∧
    (transform_static_frame9 (transform_static_frame9 c9
        StaticTF.NED_TO_ENU) StaticTF.ENU_TO_NED = c9) ∧
    (transform_static_frame9 (transform_static_frame9 c9
        StaticTF.AIRCRAFT_TO_BASELINK) StaticTF.BASELINK_TO_AIRCRAFT = c9) ∧
    (transform_static_frame3 (transform_static_frame3 covDiag123
        StaticTF.NED_TO_ENU) StaticTF.ENU_TO_NED = covDiag123) := by
  refine ⟨?_, ?_, ?_, ?_, ?_, ?_, ?_, ?_, ?_, ?_, ?_⟩
  · show NED_ENU_Q * (NED_ENU_Q * q) = -q
    rw [← mul_assoc, Qned_sq]
    exact neg_one_mul q
  · show q * AIRCRAFT_BASELINK_Q * AIRCRAFT_BASELINK_Q = -q
    rw [mul_assoc, Qab_sq]
    exact mul_neg_one q
  · show Matrix.mulVec NED_ENU_AFFINE (Matrix.mulVec NED_ENU_AFFINE v) = v
    rw [Matrix.mulVec_mulVec, NED_ENU_AFFINE, raw_NED_eq_R,
      NED_ENU_R_mul_self, Matrix.one_mulVec]
  · show Matrix.mulVec AIRCRAFT_BASELINK_AFFINE
      (Matrix.mulVec AIRCRAFT_BASELINK_AFFINE v) = v
    rw [Matrix.mulVec_mulVec, AIRCRAFT_BASELINK_AFFINE, raw_AB_eq_R,
      AB_R_mul_self, Matrix.one_mulVec]
  · show c3 * toRotMatRaw NED_ENU_Q * toRotMatRaw NED_ENU_Q = c3
    rw [raw_NED_eq_R, Matrix.mul_assoc, NED_ENU_R_mul_self, Matrix.mul_one]
  · show c3 * toRotMatRaw AIRCRAFT_BASELINK_Q *
      toRotMatRaw AIRCRAFT_BASELINK_Q = c3
    rw [raw_AB_eq_R, Matrix.mul_assoc, AB_R_mul_self, Matrix.mul_one]
  · exact sandwich_sandwich _ _ tile2_NED_mul_self
  · exact sandwich_sandwich _ _ tile2_AB_mul_self
  · exact sandwich_sandwich _ _ tile3_NED_mul_self
  · exact sandwich_sandwich _ _ tile3_AB_mul_self
  · show covDiag123 * toRotMatRaw NED_ENU_Q * toRotMatRaw NED_ENU_Q =
      covDiag123
    rw [raw_NED_eq_R, Matrix.mul_assoc, NED_ENU_R_mul_self, Matrix.mul_one]

/-- C4: for each size (3, 6, 9), the dynamic covariance transform applied
with the canonical NED/ENU quaternion as the supplied rotation agrees with
the static covariance transform with selector NED_TO_ENU. -/
theorem C4_static_dynamic_consistency (c3 : Mat3) (c6 : Mat6) (c9 : Mat9) :
    transform_frame3 c3 NED_ENU_Q =
      transform_static_frame3 c3 StaticTF.NED_TO_ENU ∧
    transform_frame6 c6 NED_ENU_Q =
      transform_static_frame6 c6 StaticTF.NED_TO_ENU ∧
    transform_frame9 c9 NED_ENU_Q =
      transform_static_frame9 c9 StaticTF.NED_TO_ENU :=
  ⟨rfl, rfl, rfl⟩

/-- C5: the orientation transform left-multiplies the canonical NED/ENU
quaternion for the NED/ENU selectors and right-multiplies the canonical
Aircraft/BaseLink quaternion for the Aircraft/BaseLink selectors. -/
theorem C5_orientation_multiplication_sides (q : Quaternion Ksq) :
    transform_orientation q StaticTF.NED_TO_ENU = NED_ENU_Q * q ∧
    transform_orientation q StaticTF.ENU_TO_NED = NED_ENU_Q * q ∧
    transform_orientation q StaticTF.AIRCRAFT_TO_BASELINK =
      q * AIRCRAFT_BASELINK_Q ∧
    transform_orientation q StaticTF.BASELINK_TO_AIRCRAFT =
      q * AIRCRAFT_BASELINK_Q :=
  ⟨rfl, rfl, rfl, rfl⟩

/-- C6 (counterexample): the dynamic size-3 covariance transform is NOT the
normalise-tile-sandwich algorithm: with the non-unit quaternion (0,2,0,0) and
identity covariance the code returns cov·toRotMatRaw(q) = diag(1,−7,−7),
while normalising and sandwiching would return the identity. -/
theorem C6_cov3_dynamic_cex :
    transform_frame3 (1 : Mat3) (quatMk 0 2 0 0) ≠
      toRotMatNormalized (quatMk 0 2 0 0) * (1 : Mat3) *
        (toRotMatNormalized (quatMk 0 2 0 0))ᵀ := by
  intro h
  have h11 := congrFun (congrFun h 1) 1
  have ha := congrArg Ksq.a h11
  simp [transform_frame3, toRotMatRaw, toRotMatNormalized, rotNum, quatMk,
    Quaternion.normSq_def', Matrix.mul_apply, Fin.sum_univ_three,
    Matrix.smul_apply, Matrix.transpose_apply, Matrix.one_apply,
    Matrix.vecHead, Matrix.vecTail] at ha
  norm_num at ha

/-- C6 (amended): the dynamic covariance transform normalises the supplied
quaternion, derives its rotation matrix, block-tiles it and applies the
sandwich product for sizes 6 and 9; for size 3, however, it right-multiplies
the covariance by the raw (unnormalised) rotation matrix of the quaternion —
no normalisation and no sandwich. -/
theorem C6_dynamic_algorithm (q : Quaternion Ksq) (c3 : Mat3) (c6 : Mat6)
    (c9 : Mat9) :
    transform_frame3 c3 q = c3 * toRotMatRaw q ∧
    transform_frame6 c6 q =
      tile2 (toRotMatNormalized q) * c6 * (tile2 (toRotMatNormalized q))ᵀ ∧
    transform_frame9 c9 q =
      tile3 (toRotMatNormalized q) * c9 * (tile3 (toRotMatNormalized q))ᵀ :=
  ⟨rfl, rfl, rfl⟩

/-- C7: the orientation transform preserves unit norm: if normSq q = 1 then
the transformed orientation also has normSq 1, for every selector. -/
theorem C7_orientation_norm_preserved (q : Quaternion Ksq) (t : StaticTF)
    (h : Quaternion.normSq q = 1) :
    Quaternion.normSq (transform_orientation q t) = 1 := by
  cases t
  · show Quaternion.normSq (NED_ENU_Q * q) = 1
    rw [normSq_mul_hom, normSq_NED_ENU_Q, h, mul_one]
  · show Quaternion.normSq (NED_ENU_Q * q) = 1
    rw [normSq_mul_hom, normSq_NED_ENU_Q, h, mul_one]
  · show Quaternion.normSq (q * AIRCRAFT_BASELINK_Q) = 1
    rw [normSq_mul_hom, h, normSq_AB_Q, mul_one]
  · show Quaternion.normSq (q * AIRCRAFT_BASELINK_Q) = 1
    rw [normSq_mul_hom, h, normSq_AB_Q, mul_one]

theorem C7_orientation_norm_preserved_witness :
    Quaternion.normSq (1 : Quaternion Ksq) = 1 ∧
    Quaternion.normSq
      (transform_orientation 1 StaticTF.NED_TO_ENU) = 1 :=
  ⟨normSq_one_hom,
    C7_orientation_norm_preserved 1 StaticTF.NED_TO_ENU normSq_one_hom⟩

/-- C8: the direction within a frame pair never changes which transform is
applied: NED_TO_ENU and ENU_TO_NED give identical results, as do
AIRCRAFT_TO_BASELINK and BASELINK_TO_AIRCRAFT, for orientations, vectors and
covariances of all three sizes. -/
theorem C8_direction_informational (q : Quaternion Ksq) (v : Vec3) (c3 : Mat3)
    (c6 : Mat6) (c9 : Mat9) :
    (transform_orientation q StaticTF.NED_TO_ENU =
      transform_orientation q StaticTF.ENU_TO_NED) ∧
    (transform_orientation q StaticTF.AIRCRAFT_TO_BASELINK =
      transform_orientation q StaticTF.BASELINK_TO_AIRCRAFT) ∧
    (transform_static_frame_vec v StaticTF.NED_TO_ENU =
      transform_static_frame_vec v StaticTF.ENU_TO_NED) ∧
    (transform_static_frame_vec v StaticTF.AIRCRAFT_TO_BASELINK =
      transform_static_frame_vec v StaticTF.BASELINK_TO_AIRCRAFT) ∧
    (transform_static_frame3 c3 StaticTF.NED_TO_ENU =
      transform_static_frame3 c3 StaticTF.ENU_TO_NED) ∧
    (transform_static_frame3 c3 StaticTF.AIRCRAFT_TO_BASELINK =
      transform_static_frame3 c3 StaticTF.BASELINK_TO_AIRCRAFT) ∧
    (transform_static_frame6 c6 StaticTF.NED_TO_ENU =
      transform_static_frame6 c6 StaticTF.ENU_TO_NED) ∧
    (transform_static_frame6 c6 StaticTF.AIRCRAFT_TO_BASELINK =
      transform_static_frame6 c6 StaticTF.BASELINK_TO_AIRCRAFT) ∧
    (transform_static_frame9 c9 StaticTF.NED_TO_ENU =
      transform_static_frame9 c9 StaticTF.ENU_TO_NED) ∧
    (transform_static_frame9 c9 StaticTF.AIRCRAFT_TO_BASELINK =
      transform_static_frame9 c9 StaticTF.BASELINK_TO_AIRCRAFT) :=
  ⟨rfl, rfl, rfl, rfl, rfl, rfl, rfl, rfl, rfl, rfl⟩

/-- C9: the static vector transform sends (x,y,z) to (x,−y,−z) for the
Aircraft/BaseLink family — in particular (0,1,0) to (0,−1,0) — and to
(y,x,−z) for the NED/ENU family. -/
theorem C9_vector_transform_values (v : Vec3) :
    transform_static_frame_vec v StaticTF.AIRCRAFT_TO_BASELINK =
      ![v 0, -v 1, -v 2] ∧
    transform_static_frame_vec v StaticTF.BASELINK_TO_AIRCRAFT =
      ![v 0, -v 1, -v 2] ∧
    transform_static_frame_vec v StaticTF.NED_TO_ENU = ![v 1, v 0, -v 2] ∧
    transform_static_frame_vec v StaticTF.ENU_TO_NED = ![v 1, v 0, -v 2] ∧
    transform_static_frame_vec ![0, 1, 0] StaticTF.AIRCRAFT_TO_BASELINK =
      ![(0 : Ksq), -1, 0] := by
  refine ⟨?_, ?_, ?_, ?_, ?_⟩ <;>
    · funext i
      fin_cases i <;>
        simp [transform_static_frame_vec, NED_ENU_AFFINE,
          AIRCRAFT_BASELINK_AFFINE, toRotMatRaw_NED, toRotMatRaw_AB,
          Matrix.mulVec, Matrix.dotProduct, Fin.sum_univ_three]

/-- C10: the dynamic covariance transforms of sizes 6 and 9 are invariant
under scaling the supplied quaternion by any nonzero scalar: the rotation is
derived from the normalised quaternion, so only the represented orientation
matters, not the norm or sign. -/
theorem C10_dynamic_scale_invariance (c : Ksq) (q : Quaternion Ksq)
    (c6 : Mat6) (c9 : Mat9) (hc : c ≠ 0) :
    transform_frame6 c6 (c • q) = transform_frame6 c6 q ∧
    transform_frame9 c9 (c • q) = transform_frame9 c9 q := by
  have key : toRotMatNormalized (c • q) = toRotMatNormalized q := by
    rw [toRotMatNormalized, toRotMatNormalized, Quaternion.normSq_smul,
      rotNum_smul, smul_smul, mul_inv,
      mul_comm ((c ^ 2)⁻¹) ((Quaternion.normSq q)⁻¹), mul_assoc,
      inv_mul_cancel₀ (pow_ne_zero 2 hc), mul_one]
  rw [transform_frame6, transform_frame9, key]
  exact ⟨rfl, rfl⟩

theorem C10_dynamic_scale_invariance_witness :
    (2 : Ksq) ≠ 0 ∧
    (transform_frame6 1 ((2 : Ksq) • quatMk 1 0 0 0) =
        transform_frame6 1 (quatMk 1 0 0 0) ∧
      transform_frame9 1 ((2 : Ksq) • quatMk 1 0 0 0) =
        transform_frame9 1 (quatMk 1 0 0 0)) := by
  have h2 : (2 : Ksq) ≠ 0 := by
    intro h
    have := congrArg Ksq.a h
    norm_num at this
  exact ⟨h2, C10_dynamic_scale_invariance 2 (quatMk 1 0 0 0) 1 1 h2⟩
